import Mathlib

/-!
Verification development for the wechat-monitor stage-2 core:
the notification routing engine, the per-source deduplication layer,
and the polling orchestrator.

Each definition is a shallow embedding of the corresponding Python
definition; module and symbol names are kept where Lean allows.
Machine time is modelled as a natural number of seconds; elapsed-time
arithmetic is done in the integers, mirroring Python arithmetic on
timestamps.  Python dicts keyed by strings are modelled as association
lists; Python sets of strings are modelled as duplicate-free lists kept
in insertion order.
-/

set_option autoImplicit false

namespace WeChatMonitor

/-! ## notification_system.py : data model -/

/-- Embedding of NotificationMessage (notification_system.py).  Fields
not consulted by rule matching, cooldown or dispatch (priority,
extra_data) are omitted; the timestamp used by the cooldown ledger is
the wall-clock instant passed to notify, exactly as the Python code
calls datetime.now() rather than reading message.timestamp. -/
structure NotificationMessage where
  title : String
  content : String
  keyword : String
  source : String
  deriving DecidableEq, Repr

/-- Embedding of NotificationRule (notification_system.py).  The
priority field is omitted: it is never consulted by matching, cooldown
or dispatch. -/
structure NotificationRule where
  name : String
  keywords : List String
  channels : List String
  cooldown : Int
  enabled : Bool
  deriving DecidableEq, Repr

/-- Python substring test: the expression kw in s on strings, true when
kw occurs contiguously inside s. -/
def pyIn (kw s : String) : Bool :=
  decide (kw.data <:+: s.data)

/-- Association-list lookup, modelling Python dict .get on a
string-keyed dict. -/
def lookupRecord : List (String × Nat) → String → Option Nat
  | [], _ => none
  | (k, v) :: rest, key => if k = key then some v else lookupRecord rest key

/-- Association-list update, modelling Python dict assignment d[key] =
v: overwrite the existing binding if present, else append a new one. -/
def updateRecord : List (String × Nat) → String → Nat → List (String × Nat)
  | [], key, v => [(key, v)]
  | (k, w) :: rest, key, v =>
      if k = key then (key, v) :: rest else (k, w) :: updateRecord rest key v

/-- Embedding of NotificationSystem._check_cooldown.  Returns the
can-send flag together with the cooldown ledger after the call: the
ledger is written (to now) exactly when the flag is true and the
cooldown is positive. -/
def checkCooldown (records : List (String × Nat)) (key : String)
    (cooldown : Int) (now : Nat) : Bool × List (String × Nat) :=
  if cooldown ≤ 0 then (true, records)
  else
    match lookupRecord records key with
    | some lastTime =>
        if (now : Int) - (lastTime : Int) < cooldown then (false, records)
        else (true, updateRecord records key now)
    | none => (true, updateRecord records key now)

/-- Embedding of NotificationSystem._match_rules: keep the enabled
rules for which some rule keyword occurs as a substring inside the
message keyword (the Python test is kw in message.keyword with kw
ranging over rule.keywords). -/
def matchRules (rules : List NotificationRule) (msg : NotificationMessage) :
    List NotificationRule :=
  rules.filter (fun rule => rule.enabled && rule.keywords.any (fun kw => pyIn kw msg.keyword))

/-- Union of the channel lists of the given rules, each channel kept
once, modelling the Python set accumulated in notify. -/
def unionChannels (rules : List NotificationRule) : List String :=
  ((rules.map (fun r => r.channels)).flatten).dedup

/-- Minimum of the cooldown fields of a list of rules, modelling the
Python min over the matched rules (taken in notify only when the list
is nonempty; 0 on the empty list is an arbitrary total-function
default). -/
def minCooldown : List NotificationRule → Int
  | [] => 0
  | r :: rs => (rs.map (fun x => x.cooldown)).foldl min r.cooldown

/-- Cooldown ledger key for a message, the Python f-string
keyword:source. -/
def cooldownKey (msg : NotificationMessage) : String :=
  msg.keyword ++ ":" ++ msg.source

/-- Embedding of the NotificationSystem state consulted by notify:
the enabled flag, the loaded rules, the configured default channels,
the names of channels that are registered and available, and the
cooldown ledger.  Channel objects themselves are external collaborators;
a channel name is in availableChannels exactly when self.channels holds
it and its is_available() is true. -/
structure NotificationSystem where
  enabled : Bool
  rules : List NotificationRule
  defaultChannels : List String
  availableChannels : List String
  cooldownRecords : List (String × Nat)
  deriving DecidableEq, Repr

/-- Embedding of NotificationSystem.notify.  The send outcome of each
available channel is an external effect, supplied as the function
sendResult; an unavailable or unregistered channel is reported false
without an attempt, as in the Python loop.  Returns the per-channel
result map (as an ordered list) and the system state after the call. -/
def notify (sys : NotificationSystem) (msg : NotificationMessage) (now : Nat)
    (sendResult : String → Bool) : List (String × Bool) × NotificationSystem :=
  if !sys.enabled then ([], sys)
  else
    let matched := matchRules sys.rules msg
    let channelsToNotify := if matched.isEmpty then sys.defaultChannels else unionChannels matched
    let cooldown : Int := if matched.isEmpty then 0 else minCooldown matched
    let res := checkCooldown sys.cooldownRecords (cooldownKey msg) cooldown now
    if !res.1 then ([], { sys with cooldownRecords := res.2 })
    else
      let results := channelsToNotify.map (fun name =>
        (name, if name ∈ sys.availableChannels then sendResult name else false))
      (results, { sys with cooldownRecords := res.2 })

/-! ## core/message.py and sources/base.py : messages and deduplication -/

/-- Embedding of ChatMessage (core/message.py), restricted to the
fields consulted by deduplication and by the orchestrator processing
path. -/
structure ChatMessage where
  id : String
  content : String
  channel : String
  timestamp : Nat
  deriving DecidableEq, Repr

/-- Embedding of the body of the per-message loop of
BaseMessageSource._deduplicate_messages.  The Python cache is a set,
modelled here by the list of its elements (kept in insertion order as a
canonical representation of the contents; membership and size are
order-independent).  The trim set(list(s)[-8000:]) enumerates the set
in an implementation-determined order — CPython iterates sets in hash
order, not insertion order — modelled by the oracle setOrder, an
arbitrary permutation of the contents, and keeps the last 8000 entries
of that enumeration.  In particular the entries kept need not be the
most recently inserted ones, and the identity just added need not
survive the trim.  Returns whether the message is admitted as new, and
the cache after the message. -/
def dedupStep (setOrder : List String → List String) (seen : List String)
    (msg : ChatMessage) : Bool × List String :=
  if msg.id ∈ seen then (false, seen)
  else
    let seen1 := seen ++ [msg.id]
    if 10000 < seen1.length then
      let enum := setOrder seen1
      (true, enum.drop (enum.length - 8000))
    else (true, seen1)

/-- Embedding of BaseMessageSource._deduplicate_messages: fold
dedupStep over the polled batch, collecting the admitted messages in
order. -/
def deduplicateMessages (setOrder : List String → List String) :
    List String → List ChatMessage → List ChatMessage × List String
  | seen, [] => ([], seen)
  | seen, msg :: rest =>
      let r := dedupStep setOrder seen msg
      let out := deduplicateMessages setOrder r.2 rest
      if r.1 then (msg :: out.1, out.2) else out

/-- Ten thousand distinct message identities: a reachable dedup-cache
content sitting exactly at the trim cap, used to exercise the eviction
path of dedupStep. -/
def bigSeen : List String := (List.range 10000).map (fun n => "k" ++ toString n)

/-- Fresh message identity, absent from bigSeen. -/
def freshMsg : ChatMessage := ⟨"f", "x", "ch", 0⟩

/-- Embedding of the BaseMessageSource fields consulted by
is_available and by the orchestrator: the enabled flag, the last
recorded poll error, the last poll time, and the error and message
counters maintained by _update_poll_status. -/
structure SourceState where
  enabled : Bool
  lastError : Option String
  lastPollTime : Option Nat
  errorCount : Nat
  messageCount : Nat
  deriving DecidableEq, Repr

/-- Embedding of BaseMessageSource.is_available: unavailable when
disabled, or when an error is recorded and the last poll happened less
than five minutes (300 seconds) ago. -/
def isAvailable (s : SourceState) (now : Nat) : Bool :=
  if !s.enabled then false
  else
    match s.lastError, s.lastPollTime with
    | some _, some t => if (now : Int) - (t : Int) < 300 then false else true
    | _, _ => true

/-- Embedding of BaseMessageSource._update_poll_status: stamp the poll
time; on success clear the error, on failure count it and record the
message. -/
def updatePollStatus (s : SourceState) (now : Nat) (success : Bool)
    (errorMsg : Option String) : SourceState :=
  if success then { s with lastPollTime := some now, lastError := none }
  else
    { s with
        lastPollTime := some now
        errorCount := s.errorCount + 1
        lastError := some (errorMsg.getD "Unknown error") }

/-! ## monitor_v2.py : keyword filter, message processing, orchestrator -/

namespace MonitorV2

/-- Embedding of the KeywordFilter state (monitor_v2.py): the stored
keyword list (already lower-cased at construction when
case-insensitive) and the case-sensitivity flag. -/
structure KeywordFilter where
  keywords : List String
  caseSensitive : Bool
  deriving DecidableEq, Repr

/-- Embedding of KeywordFilter.__init__ (monitor_v2.py): when
case-insensitive, every configured keyword is lower-cased once at
construction. -/
def mkKeywordFilter (keywords : List String) (caseSensitive : Bool) : KeywordFilter :=
  { keywords := if caseSensitive then keywords else keywords.map String.toLower
    caseSensitive := caseSensitive }

/-- Embedding of the for-loop of KeywordFilter.check (monitor_v2.py):
return the first stored keyword occurring as a substring of the
prepared text. -/
def checkFirst (checkText : String) : List String → Option String
  | [] => none
  | keyword :: rest =>
      if pyIn keyword checkText then some keyword else checkFirst checkText rest

/-- Embedding of KeywordFilter.check (monitor_v2.py).  The argument is
an optional string so that the Python falsiness test if not text covers
both None and the empty string. -/
def check (f : KeywordFilter) (text : Option String) : Option String :=
  match text with
  | none => none
  | some t =>
      if t.isEmpty then none
      else
        let checkText := if f.caseSensitive then t else t.toLower
        checkFirst checkText f.keywords

end MonitorV2

/-- Embedding of MessageRecord (database.py), restricted to the fields
written by MultiSourceMonitor._process_message. -/
structure MessageRecord where
  windowTitle : String
  windowHandle : Nat
  messageText : String
  matchedKeyword : String
  createdAt : Nat
  deriving DecidableEq, Repr

/-- Model of the persistence collaborator (DatabaseManager): the stored
records, plus an abstract per-content failure oracle standing for the
external conditions under which insert_message raises. -/
structure DbState where
  stored : List MessageRecord
  failOn : String → Bool

/-- Model of DatabaseManager.insert_message: append the record, or fail
according to the failure oracle. -/
def insertMessage (db : DbState) (r : MessageRecord) : Except String DbState :=
  if db.failOn r.messageText then Except.error "db error"
  else Except.ok { db with stored := db.stored ++ [r] }

/-- Embedding of the record construction in
MultiSourceMonitor._process_message: run the keyword filter on the
message content (when a filter is configured) and build the database
record, with the unmatched marker as Python matched_keyword or
fallback. -/
def toRecord (kf : Option MonitorV2.KeywordFilter) (msg : ChatMessage) : MessageRecord :=
  let matchedKeyword :=
    match kf with
    | none => none
    | some f => MonitorV2.check f (some msg.content)
  { windowTitle := msg.channel
    windowHandle := 0
    messageText := msg.content
    matchedKeyword := matchedKeyword.getD "(未匹配)"
    createdAt := msg.timestamp }

/-- Embedding of MultiSourceMonitor._process_message: match, build the
record, submit it for persistence; a persistence failure is caught
inside the method, which then returns false and leaves the store as it
was.  Notification dispatch and websocket broadcast are fire-and-forget
external effects and are not part of the returned state. -/
def processMessage (kf : Option MonitorV2.KeywordFilter) (db : DbState)
    (msg : ChatMessage) : Bool × DbState :=
  let record := toRecord kf msg
  match insertMessage db record with
  | Except.ok db2 => (true, db2)
  | Except.error _ => (false, db)

/-- Embedding of the per-message loop in
MultiSourceMonitor._poll_source: process each message of the batch in
order, threading the store. -/
def processBatch : Option MonitorV2.KeywordFilter → DbState → List ChatMessage →
    List Bool × DbState
  | _, db, [] => ([], db)
  | kf, db, msg :: rest =>
      let r := processMessage kf db msg
      let out := processBatch kf r.2 rest
      (r.1 :: out.1, out.2)

/-- Outcome of one call to source.poll(): either a returned batch, or
an exception escaping the call. -/
inductive PollResult where
  | ok (msgs : List ChatMessage)
  | raises (e : String)
  deriving DecidableEq, Repr

/-- Embedding of MultiSourceMonitor._poll_source: skip when the source
reports unavailable; otherwise run poll, processing the returned batch,
and catch any exception escaping poll (the except branch only logs: the
source state is not touched and no failure is recorded in it).  Returns
whether poll was attempted, the source state, the store, and the
per-message processing outcomes. -/
def pollSource (s : SourceState) (now : Nat) (result : PollResult)
    (kf : Option MonitorV2.KeywordFilter) (db : DbState) :
    Bool × SourceState × DbState × List Bool :=
  if !(isAvailable s now) then (false, s, db, [])
  else
    match result with
    | PollResult.raises _ => (true, s, db, [])
    | PollResult.ok msgs =>
        let out := processBatch kf db msgs
        (true, s, out.2, out.1)

/-- Embedding of the due-ness test of the run loop (monitor_v2.py):
poll when at least poll_interval seconds have elapsed since the last
recorded poll instant for this source. -/
def shouldPoll (now lastPoll interval : Nat) : Bool :=
  decide ((interval : Int) ≤ (now : Int) - (lastPoll : Int))

/-- Embedding of one run-loop scheduling step for one source: when the
source is due, invoke pollSource and stamp the per-source last-poll
instant with the current time, whether or not the poll was attempted or
succeeded.  Returns whether poll was attempted, the source state, the
store, and the updated last-poll instant. -/
def runLoopStep (now lastPoll interval : Nat) (s : SourceState) (result : PollResult)
    (kf : Option MonitorV2.KeywordFilter) (db : DbState) :
    Bool × SourceState × DbState × Nat :=
  if shouldPoll now lastPoll interval then
    let r := pollSource s now result kf db
    (r.1, r.2.1, r.2.2.1, now)
  else (false, s, db, lastPoll)

/-! ## monitor.py : the scan-based keyword filter with match modes -/

namespace Monitor

/-- Match modes of KeywordFilter (monitor.py), the Python strings
contain, exact and fuzzy. -/
inductive MatchMode where
  | contain
  | exact
  | fuzzy
  deriving DecidableEq, Repr

/-- Embedding of the KeywordFilter state (monitor.py). -/
structure KeywordFilter where
  keywords : List String
  matchMode : MatchMode
  caseSensitive : Bool
  fuzzyThreshold : ℚ
  deriving DecidableEq, Repr

/-- Table of visually similar character substitutions used by
KeywordFilter._ocr_error_match (monitor.py); the Python dict literal
repeats one key, which a dict collapses. -/
def ocrErrorMap : List (Char × Char) :=
  [('欵', '款'), ('吿', '告'), ('訴', '诉'), ('単', '单'), ('扴', '打'),
   ('収', '收'), ('発', '发'), ('貨', '货'), ('価', '价'), ('扱', '投')]

/-- Embedding of KeywordFilter._ocr_error_match (monitor.py): strip
spaces and newlines, test containment, then retest after applying the
character-substitution table to the text. -/
def ocrErrorMatch (caseSensitive : Bool) (text keyword : String) : Bool :=
  let text1 := if caseSensitive then text else text.toLower
  let keyword1 := if caseSensitive then keyword else keyword.toLower
  let textNoSpace := text1.data.filter (fun c => !(c == ' ' || c == '\n'))
  let keywordNoSpace := keyword1.data.filter (fun c => !(c == ' ' || c == '\n'))
  if decide (keywordNoSpace <:+: textNoSpace) then true
  else
    let correctedText := ocrErrorMap.foldl
      (fun acc p => acc.map (fun c => if c = p.1 then p.2 else c)) textNoSpace
    decide (keywordNoSpace <:+: correctedText)

/-- Embedding of KeywordFilter._fuzzy_match (monitor.py): lower-case
both ends when case-insensitive and apply the similarity oracle, which
stands for the external difflib.SequenceMatcher ratio. -/
def fuzzyMatch (sim : String → String → ℚ) (caseSensitive : Bool)
    (text keyword : String) : ℚ :=
  if caseSensitive then sim text keyword else sim text.toLower keyword.toLower

/-- Embedding of the for-loop of KeywordFilter.check (monitor.py),
with the per-mode tests and early returns of the loop body inlined. -/
def checkLoop (sim : String → String → ℚ) (f : KeywordFilter) (text : String) :
    List String → Option String
  | [] => none
  | keyword :: rest =>
      let checkText := if f.caseSensitive then text else text.toLower
      let checkKeyword := if f.caseSensitive then keyword else keyword.toLower
      match f.matchMode with
      | MatchMode.contain =>
          if pyIn checkKeyword checkText then some keyword
          else if ocrErrorMatch f.caseSensitive text keyword then some keyword
          else checkLoop sim f text rest
      | MatchMode.exact =>
          if checkKeyword == checkText then some keyword
          else checkLoop sim f text rest
      | MatchMode.fuzzy =>
          if f.fuzzyThreshold ≤ fuzzyMatch sim f.caseSensitive text keyword then some keyword
          else if pyIn checkKeyword checkText then some keyword
          else checkLoop sim f text rest

/-- Embedding of KeywordFilter.check (monitor.py).  As in the v2
filter, the optional argument covers the Python falsiness test on None
and the empty string. -/
def check (sim : String → String → ℚ) (f : KeywordFilter) (text : Option String) :
    Option String :=
  match text with
  | none => none
  | some t => if t.isEmpty then none else checkLoop sim f t f.keywords

/-- Specification-side test for a single keyword against a text,
collecting the tests the loop body of check performs for one keyword in
the configured mode. -/
def kwMatches (sim : String → String → ℚ) (f : KeywordFilter) (text keyword : String) :
    Bool :=
  let checkText := if f.caseSensitive then text else text.toLower
  let checkKeyword := if f.caseSensitive then keyword else keyword.toLower
  match f.matchMode with
  | MatchMode.contain => pyIn checkKeyword checkText || ocrErrorMatch f.caseSensitive text keyword
  | MatchMode.exact => checkKeyword == checkText
  | MatchMode.fuzzy =>
      decide (f.fuzzyThreshold ≤ fuzzyMatch sim f.caseSensitive text keyword)
        || pyIn checkKeyword checkText

end Monitor

/-! ## Shared lemmas -/

theorem lookupRecord_updateRecord_self (records : List (String × Nat)) (key : String)
    (v : Nat) : lookupRecord (updateRecord records key v) key = some v := by
  induction records with
  | nil => simp [updateRecord, lookupRecord]
  | cons p rest ih =>
      by_cases h : p.1 = key
      · simp [updateRecord, h, lookupRecord]
      · simp only [updateRecord]
        rw [if_neg h]
        simp [lookupRecord, h, ih]

theorem matchRules_keyword_congr (rules : List NotificationRule)
    (msg1 msg2 : NotificationMessage) (h : msg2.keyword = msg1.keyword) :
    matchRules rules msg2 = matchRules rules msg1 := by
  simp [matchRules, h]

theorem cooldownKey_congr (msg1 msg2 : NotificationMessage)
    (hk : msg2.keyword = msg1.keyword) (hs : msg2.source = msg1.source) :
    cooldownKey msg2 = cooldownKey msg1 := by
  simp [cooldownKey, hk, hs]

theorem foldl_min_le_init (l : List Int) (a : Int) : l.foldl min a ≤ a := by
  induction l generalizing a with
  | nil => exact le_refl a
  | cons b t ih => exact le_trans (ih (min a b)) (min_le_left a b)

theorem foldl_min_le_mem (l : List Int) (a x : Int) (hx : x ∈ l) : l.foldl min a ≤ x := by
  induction l generalizing a with
  | nil => cases hx
  | cons b t ih =>
      rcases List.mem_cons.mp hx with h | h
      · subst h
        exact le_trans (foldl_min_le_init t (min a x)) (min_le_right a x)
      · exact ih (min a b) h

theorem foldl_min_attained (l : List Int) (a : Int) :
    l.foldl min a = a ∨ l.foldl min a ∈ l := by
  induction l generalizing a with
  | nil => exact Or.inl rfl
  | cons b t ih =>
      have hstep : List.foldl min a (b :: t) = List.foldl min (min a b) t := rfl
      rcases ih (min a b) with h | h
      · rcases min_choice a b with hm | hm
        · exact Or.inl (by rw [hstep, h, hm])
        · exact Or.inr (List.mem_cons.mpr (Or.inl (by rw [hstep, h, hm])))
      · exact Or.inr (List.mem_cons.mpr (Or.inr (by rw [hstep]; exact h)))

theorem minCooldown_le (rules : List NotificationRule) (r : NotificationRule)
    (hr : r ∈ rules) : minCooldown rules ≤ r.cooldown := by
  cases rules with
  | nil => cases hr
  | cons r0 rs =>
      rcases List.mem_cons.mp hr with h | h
      · subst h
        exact foldl_min_le_init _ _
      · exact foldl_min_le_mem _ _ _ (List.mem_map.mpr ⟨r, h, rfl⟩)

theorem minCooldown_attained (rules : List NotificationRule) (h : rules ≠ []) :
    ∃ r ∈ rules, r.cooldown = minCooldown rules := by
  cases rules with
  | nil => exact absurd rfl h
  | cons r0 rs =>
      rcases foldl_min_attained (rs.map (fun x => x.cooldown)) r0.cooldown with hm | hm
      · exact ⟨r0, List.mem_cons_self r0 rs, by simp [minCooldown, hm]⟩
      · rcases List.mem_map.mp hm with ⟨r, hrm, hrv⟩
        exact ⟨r, List.mem_cons.mpr (Or.inr hrm), by simp [minCooldown, hrv]⟩

theorem checkCooldown_nonpos (records : List (String × Nat)) (key : String)
    (cooldown : Int) (now : Nat) (h : cooldown ≤ 0) :
    checkCooldown records key cooldown now = (true, records) := by
  simp [checkCooldown, h]

theorem checkCooldown_snd_cases (records : List (String × Nat)) (key : String)
    (cooldown : Int) (now : Nat) :
    (checkCooldown records key cooldown now).2 = records
    ∨ (0 < cooldown ∧ (checkCooldown records key cooldown now).1 = true
        ∧ (checkCooldown records key cooldown now).2 = updateRecord records key now) := by
  by_cases h : cooldown ≤ 0
  · left
    simp [checkCooldown, h]
  · have hpos : 0 < cooldown := not_le.mp h
    cases hl : lookupRecord records key with
    | none =>
        right
        refine ⟨hpos, ?_, ?_⟩ <;> simp [checkCooldown, h, hl]
    | some t =>
        by_cases hw : (now : Int) - (t : Int) < cooldown
        · left
          simp [checkCooldown, h, hl, hw]
        · right
          refine ⟨hpos, ?_, ?_⟩ <;> simp [checkCooldown, h, hl, hw]

theorem checkCooldown_pos_allowed_snd (records : List (String × Nat)) (key : String)
    (cooldown : Int) (now : Nat) (hc : 0 < cooldown)
    (h : (checkCooldown records key cooldown now).1 = true) :
    (checkCooldown records key cooldown now).2 = updateRecord records key now := by
  have hnle : ¬ cooldown ≤ 0 := not_le.mpr hc
  cases hl : lookupRecord records key with
  | none => simp [checkCooldown, hnle, hl]
  | some t =>
      by_cases hw : (now : Int) - (t : Int) < cooldown
      · exfalso
        rw [show (checkCooldown records key cooldown now).1 = false by
          simp [checkCooldown, hnle, hl, hw]] at h
        exact Bool.false_ne_true h
      · simp [checkCooldown, hnle, hl, hw]

theorem checkCooldown_blocked (records : List (String × Nat)) (key : String)
    (cooldown : Int) (now t : Nat) (hc : 0 < cooldown)
    (hl : lookupRecord records key = some t)
    (hw : (now : Int) - (t : Int) < cooldown) :
    checkCooldown records key cooldown now = (false, records) := by
  simp [checkCooldown, not_le.mpr hc, hl, hw]

theorem notify_not_enabled (sys : NotificationSystem) (msg : NotificationMessage)
    (now : Nat) (sendResult : String → Bool) (h : sys.enabled = false) :
    notify sys msg now sendResult = ([], sys) := by
  simp [notify, h]

theorem notify_snd_cooldownRecords (sys : NotificationSystem) (msg : NotificationMessage)
    (now : Nat) (sendResult : String → Bool) (hen : sys.enabled = true) :
    (notify sys msg now sendResult).2.cooldownRecords =
      (checkCooldown sys.cooldownRecords (cooldownKey msg)
        (if (matchRules sys.rules msg).isEmpty then 0
         else minCooldown (matchRules sys.rules msg)) now).2 := by
  simp [notify, hen]
  split <;> split <;> rfl

theorem checkCooldown_false_snd (records : List (String × Nat)) (key : String)
    (cooldown : Int) (now : Nat)
    (h : (checkCooldown records key cooldown now).1 = false) :
    (checkCooldown records key cooldown now).2 = records := by
  rcases checkCooldown_snd_cases records key cooldown now with hc | ⟨_, hflag, _⟩
  · exact hc
  · rw [hflag] at h
    exact absurd h (by simp)

theorem notify_snd_fields (sys : NotificationSystem) (msg : NotificationMessage)
    (now : Nat) (sendResult : String → Bool) :
    (notify sys msg now sendResult).2
      = { sys with cooldownRecords := (notify sys msg now sendResult).2.cooldownRecords } := by
  obtain ⟨en, rules, dc, ac, cr⟩ := sys
  cases en with
  | false => rfl
  | true =>
      simp [notify]
      split <;> split <;> rfl

theorem mem_unionChannels (rules : List NotificationRule) (c : String) :
    c ∈ unionChannels rules ↔ ∃ r ∈ rules, c ∈ r.channels := by
  simp [unionChannels]

theorem notify_blocked (sys : NotificationSystem) (msg : NotificationMessage)
    (now : Nat) (sendResult : String → Bool) (hen : sys.enabled = true)
    (hm : matchRules sys.rules msg ≠ [])
    (hflag : (checkCooldown sys.cooldownRecords (cooldownKey msg)
        (minCooldown (matchRules sys.rules msg)) now).1 = false) :
    notify sys msg now sendResult = ([], sys) := by
  have hsnd := checkCooldown_false_snd _ _ _ _ hflag
  obtain ⟨en, rules, dc, ac, cr⟩ := sys
  simp only [] at hen
  subst hen
  simp_all [notify]

/-! ## Claim C1 : rule-matching direction -/

/-- Claim C1, counterexample.  The claim states that a rule is matched
exactly when it is enabled and the message keyword appears as a
substring inside one of the rule keyword entries.  The code tests the
opposite direction: here the enabled rule with keyword list containing
the single entry ab is matched for a message whose keyword is xaby,
although xaby does not occur inside ab. -/
theorem matchRules_direction_counterexample :
    let r : NotificationRule := ⟨"R", ["ab"], ["console"], 300, true⟩
    let msg : NotificationMessage := ⟨"t", "c", "xaby", "s"⟩
    r ∈ matchRules [r] msg
      ∧ r.enabled = true
      ∧ ¬ ∃ kw ∈ r.keywords, msg.keyword.data <:+: kw.data := by
  decide

/-- Claim C1, amended: a rule is matched by NotificationSystem._match_rules
if and only if it is one of the configured rules, it is enabled, and at
least one of the rule keyword entries appears as a substring inside the
message keyword (the direction opposite to the one the claim states). -/
theorem matchRules_mem_iff (rules : List NotificationRule) (msg : NotificationMessage)
    (r : NotificationRule) :
    r ∈ matchRules rules msg ↔
      r ∈ rules ∧ r.enabled = true ∧ ∃ kw ∈ r.keywords, kw.data <:+: msg.keyword.data := by
  simp [matchRules, List.mem_filter, pyIn, List.any_eq_true, and_assoc]

/-! ## Claim C3 : channel union and minimum cooldown over matched rules -/

/-- Claim C3: when at least one rule matches and the cooldown check
lets the notification through, the channels notify delivers to are
exactly the union of the channel lists of the matched rules, each
channel once, and the cooldown applied to the notification (the value
the cooldown check ran with) is the minimum cooldown among the matched
rules: a lower bound of them that is attained by one of them. -/
theorem notify_rule_union_min_cooldown (sys : NotificationSystem)
    (msg : NotificationMessage) (now : Nat) (sendResult : String → Bool)
    (hen : sys.enabled = true)
    (hm : matchRules sys.rules msg ≠ [])
    (hcd : (checkCooldown sys.cooldownRecords (cooldownKey msg)
        (minCooldown (matchRules sys.rules msg)) now).1 = true) :
    ((notify sys msg now sendResult).1.map Prod.fst
        = unionChannels (matchRules sys.rules msg))
      ∧ (∀ c, c ∈ (notify sys msg now sendResult).1.map Prod.fst
          ↔ ∃ r ∈ matchRules sys.rules msg, c ∈ r.channels)
      ∧ ((notify sys msg now sendResult).1.map Prod.fst).Nodup
      ∧ (∀ r ∈ matchRules sys.rules msg,
          minCooldown (matchRules sys.rules msg) ≤ r.cooldown)
      ∧ (∃ r ∈ matchRules sys.rules msg,
          r.cooldown = minCooldown (matchRules sys.rules msg)) := by
  have hfst : (notify sys msg now sendResult).1.map Prod.fst
      = unionChannels (matchRules sys.rules msg) := by
    simp [notify, hen, hm, hcd, List.map_map]
    exact List.map_id _
  refine ⟨hfst, ?_, ?_, ?_, ?_⟩
  · intro c
    rw [hfst]
    exact mem_unionChannels _ c
  · rw [hfst]
    exact List.nodup_dedup _
  · exact fun r hr => minCooldown_le _ r hr
  · exact minCooldown_attained _ hm

/-- Claim C3, witness, the worked example of the specification: the
message keyword refund matches rule R1 with channel set console and
rule R2 with channel set file and console; the resolved channel list of
the notify call is exactly the two-element union. -/
theorem notify_rule_union_min_cooldown_witness :
    (notify
        ⟨true, [⟨"R1", ["refund"], ["console"], 300, true⟩,
                ⟨"R2", ["refund"], ["file", "console"], 120, true⟩],
          [], ["console", "file"], []⟩
        ⟨"t", "c", "refund", "s"⟩ 0 (fun _ => true)).1.map Prod.fst
      = unionChannels (matchRules
          [⟨"R1", ["refund"], ["console"], 300, true⟩,
           ⟨"R2", ["refund"], ["file", "console"], 120, true⟩]
          ⟨"t", "c", "refund", "s"⟩) :=
  (notify_rule_union_min_cooldown _ _ _ _ rfl (by decide) (by decide)).1

/-! ## Claim C2 : the cooldown drops a second notification inside the window -/

/-- Claim C2, counterexample.  A trace of three notify calls on one
rule (cooldown 100) and one message (key k:s): the call at instant 0 is
allowed and writes the ledger; the call at instant 60 is dropped by the
cooldown and therefore does not advance the ledger; the call at instant
110 succeeds.  The pair of notifications at instants 60 and 110 shares
the key, both match the rule, and 110 minus 60 is below the governing
cooldown 100, yet the one at 110 produces a channel send — the claim
quantifies over any two notifications and is false for this pair. -/
theorem cooldown_pair_counterexample :
    let rule : NotificationRule := ⟨"R", ["k"], ["console"], 100, true⟩
    let sys0 : NotificationSystem := ⟨true, [rule], [], ["console"], []⟩
    let msg : NotificationMessage := ⟨"t", "c", "k", "s"⟩
    let f : String → Bool := fun _ => true
    let sys1 := (notify sys0 msg 0 f).2
    let sys2 := (notify sys1 msg 60 f).2
    matchRules sys2.rules msg ≠ []
      ∧ minCooldown (matchRules sys2.rules msg) = 100
      ∧ (notify sys1 msg 60 f).1 = []
      ∧ ((110 : Int) - (60 : Int) < 100)
      ∧ (notify sys2 msg 110 f).1 = [("console", true)] := by
  decide

/-- Claim C2, amended: for two notifications sharing the cooldown key
and matching at least one rule, IF the first one was allowed by the
cooldown check (so that it wrote the ledger), then a second one whose
instant lies within the governing cooldown window (the minimum cooldown
among its matched rules) of the first produces no channel sends, leaves
the state unchanged and notify returns the empty result map. -/
theorem notify_cooldown_blocks (sys : NotificationSystem)
    (msg1 msg2 : NotificationMessage) (t1 t2 : Nat) (f1 f2 : String → Bool)
    (hen : sys.enabled = true)
    (hkw : msg2.keyword = msg1.keyword) (hsrc : msg2.source = msg1.source)
    (hm : matchRules sys.rules msg1 ≠ [])
    (hallowed : (checkCooldown sys.cooldownRecords (cooldownKey msg1)
        (minCooldown (matchRules sys.rules msg1)) t1).1 = true)
    (hle : t1 ≤ t2)
    (hwin : (t2 : Int) - (t1 : Int) < minCooldown (matchRules sys.rules msg2)) :
    notify ((notify sys msg1 t1 f1).2) msg2 t2 f2 = ([], (notify sys msg1 t1 f1).2) := by
  have hmm : matchRules sys.rules msg2 = matchRules sys.rules msg1 :=
    matchRules_keyword_congr sys.rules msg1 msg2 hkw
  have hwin1 : (t2 : Int) - (t1 : Int) < minCooldown (matchRules sys.rules msg1) := by
    rw [hmm] at hwin
    exact hwin
  have hposdiff : (0 : Int) ≤ (t2 : Int) - (t1 : Int) := by
    have hcast : (t1 : Int) ≤ (t2 : Int) := by exact_mod_cast hle
    exact sub_nonneg.mpr hcast
  have hcpos : 0 < minCooldown (matchRules sys.rules msg1) :=
    lt_of_le_of_lt hposdiff hwin1
  have hne1 : (matchRules sys.rules msg1).isEmpty = false := by
    cases hmr : matchRules sys.rules msg1 with
    | nil => exact absurd hmr hm
    | cons a l => rfl
  have hrec1 : (notify sys msg1 t1 f1).2.cooldownRecords
      = updateRecord sys.cooldownRecords (cooldownKey msg1) t1 := by
    have h := notify_snd_cooldownRecords sys msg1 t1 f1 hen
    rw [hne1] at h
    simp only [Bool.false_eq_true, if_false] at h
    rw [h]
    exact checkCooldown_pos_allowed_snd _ _ _ _ hcpos hallowed
  have hs1 : (notify sys msg1 t1 f1).2
      = { sys with cooldownRecords :=
            updateRecord sys.cooldownRecords (cooldownKey msg1) t1 } := by
    rw [notify_snd_fields sys msg1 t1 f1, hrec1]
  rw [hs1]
  have hkey : cooldownKey msg2 = cooldownKey msg1 :=
    cooldownKey_congr msg1 msg2 hkw hsrc
  refine notify_blocked _ msg2 t2 f2 hen ?_ ?_
  · show matchRules sys.rules msg2 ≠ []
    rw [hmm]
    exact hm
  · show (checkCooldown (updateRecord sys.cooldownRecords (cooldownKey msg1) t1)
        (cooldownKey msg2) (minCooldown (matchRules sys.rules msg2)) t2).1 = false
    rw [hkey, hmm,
      checkCooldown_blocked _ _ _ t2 t1 hcpos
        (lookupRecord_updateRecord_self sys.cooldownRecords (cooldownKey msg1) t1) hwin1]

/-- Claim C2, witness for the amended theorem: a first allowed
notification at instant 0 on a rule with cooldown 100, followed by one
with the same key at instant 50, which is dropped. -/
theorem notify_cooldown_blocks_witness :
    notify ((notify ⟨true, [⟨"R", ["k"], ["console"], 100, true⟩], [], ["console"], []⟩
          ⟨"t", "c", "k", "s"⟩ 0 (fun _ => true)).2)
        ⟨"t2", "c2", "k", "s"⟩ 50 (fun _ => true)
      = ([], (notify ⟨true, [⟨"R", ["k"], ["console"], 100, true⟩], [], ["console"], []⟩
          ⟨"t", "c", "k", "s"⟩ 0 (fun _ => true)).2) :=
  notify_cooldown_blocks _ _ _ 0 50 _ _ rfl rfl rfl (by decide) (by decide)
    (by decide) (by decide)

/-! ## Claim C6 : default-channel fallback with cooldown disabled -/

/-- Claim C6: when no rule matches a message, notify dispatches to the
configured default channels with cooldown disabled: every default
channel that is available receives the notification, whatever the
cooldown ledger holds for the key of the message. -/
theorem notify_default_channels (sys : NotificationSystem) (msg : NotificationMessage)
    (now : Nat) (sendResult : String → Bool) (c : String)
    (hen : sys.enabled = true) (hm : matchRules sys.rules msg = [])
    (hd : c ∈ sys.defaultChannels) (ha : c ∈ sys.availableChannels) :
    (c, sendResult c) ∈ (notify sys msg now sendResult).1 := by
  simp [notify, hen, hm, checkCooldown, List.mem_map]
  exact ⟨c, hd, rfl, by simp [ha]⟩

/-- Claim C6, witness: message keyword spam matches no rule, both
default channels are available, the ledger holds an entry for spam:s
only one second old, and console still receives the notification. -/
theorem notify_default_channels_witness :
    (("console", true)) ∈
      (notify
        ⟨true, [⟨"R", ["refund"], ["console"], 300, true⟩],
          ["console", "file"], ["console", "file"], [("spam:s", 99)]⟩
        ⟨"t", "c", "spam", "s"⟩ 100 (fun _ => true)).1 :=
  notify_default_channels _ _ _ _ _ rfl (by decide) (by decide) (by decide)

/-! ## Claim C10 : the cooldown ledger is written only on allowed rule-matched sends -/

/-- Claim C10: after any notify call, either the cooldown ledger is
unchanged, or the message matched at least one rule, the governing
cooldown (the minimum over the matched rules) is positive, the cooldown
check allowed the send, and the ledger was rewritten at the key of the
message with the current instant.  In particular the no-rule
default-channel path (cooldown zero) and the cooldown-dropped path
leave the ledger untouched. -/
theorem notify_ledger_frame (sys : NotificationSystem) (msg : NotificationMessage)
    (now : Nat) (sendResult : String → Bool) :
    (notify sys msg now sendResult).2.cooldownRecords = sys.cooldownRecords
    ∨ (matchRules sys.rules msg ≠ []
        ∧ 0 < minCooldown (matchRules sys.rules msg)
        ∧ (checkCooldown sys.cooldownRecords (cooldownKey msg)
            (minCooldown (matchRules sys.rules msg)) now).1 = true
        ∧ (notify sys msg now sendResult).2.cooldownRecords
            = updateRecord sys.cooldownRecords (cooldownKey msg) now) := by
  cases hen : sys.enabled with
  | false =>
      left
      rw [notify_not_enabled sys msg now sendResult hen]
  | true =>
      have hrec := notify_snd_cooldownRecords sys msg now sendResult hen
      by_cases hm : matchRules sys.rules msg = []
      · left
        rw [hrec]
        simp [hm, checkCooldown]
      · have hne : (matchRules sys.rules msg).isEmpty = false := by
          cases hmr : matchRules sys.rules msg with
          | nil => exact absurd hmr hm
          | cons a l => rfl
        rw [hne] at hrec
        simp only [Bool.false_eq_true, if_false] at hrec
        rcases checkCooldown_snd_cases sys.cooldownRecords (cooldownKey msg)
            (minCooldown (matchRules sys.rules msg)) now with hcase | ⟨hpos, hflag, hupd⟩
        · left
          rw [hrec]
          exact hcase
        · right
          exact ⟨hm, hpos, hflag, by rw [hrec]; exact hupd⟩

/-! ## Claims C4 and C5 : deduplication -/

theorem dedupStep_fst (setOrder : List String → List String) (seen : List String)
    (m : ChatMessage) :
    (dedupStep setOrder seen m).1 = !decide (m.id ∈ seen) := by
  by_cases h : m.id ∈ seen
  · simp [dedupStep, h]
  · simp only [dedupStep, if_neg h]
    split <;> simp [h]

theorem deduplicateMessages_single (setOrder : List String → List String)
    (seen : List String) (m : ChatMessage) :
    deduplicateMessages setOrder seen [m]
      = (if m.id ∈ seen then [] else [m], (dedupStep setOrder seen m).2) := by
  by_cases h : m.id ∈ seen <;> simp [deduplicateMessages, dedupStep_fst, h]

theorem dedupStep_length_le (setOrder : List String → List String)
    (seen : List String) (m : ChatMessage) (hlen : seen.length ≤ 10000) :
    (dedupStep setOrder seen m).2.length ≤ 10000 := by
  by_cases h : m.id ∈ seen
  · simpa [dedupStep, h] using hlen
  · by_cases ht : 10000 < (seen ++ [m.id]).length
    · simp only [dedupStep, if_neg h, if_pos ht]
      rw [List.length_drop]
      omega
    · simp only [dedupStep, if_neg h, if_neg ht]
      exact le_of_not_lt ht

theorem deduplicateMessages_length_le (setOrder : List String → List String)
    (msgs : List ChatMessage) (seen : List String) (hlen : seen.length ≤ 10000) :
    (deduplicateMessages setOrder seen msgs).2.length ≤ 10000 := by
  induction msgs generalizing seen with
  | nil => simpa [deduplicateMessages] using hlen
  | cons m rest ih =>
      have h2 : (deduplicateMessages setOrder seen (m :: rest)).2
          = (deduplicateMessages setOrder (dedupStep setOrder seen m).2 rest).2 := by
        simp only [deduplicateMessages]
        split <;> rfl
      rw [h2]
      exact ih _ (dedupStep_length_le setOrder seen m hlen)

theorem bigSeen_length : bigSeen.length = 10000 := by
  simp [bigSeen]

theorem freshMsg_id : freshMsg.id = "f" := rfl

theorem f_not_mem_bigSeen : "f" ∉ bigSeen := by
  intro h
  obtain ⟨n, hn, heq⟩ := List.mem_map.mp h
  have hdata : ("k" ++ toString n).data = "f".data := congrArg String.data heq
  rw [String.data_append] at hdata
  have h2 : 'k' :: (toString n).data = ['f'] := hdata
  injection h2 with hk hres
  exact absurd hk (by decide)

theorem bigSeen_trim :
    dedupStep List.reverse bigSeen freshMsg = (true, bigSeen.reverse.drop 2000) := by
  have hrev : (bigSeen ++ ["f"]).reverse = "f" :: bigSeen.reverse := by
    rw [List.reverse_append, List.reverse_singleton, List.singleton_append]
  have hlen1 : (bigSeen ++ ["f"]).length = 10001 := by
    rw [List.length_append, bigSeen_length, List.length_singleton]
  show (if freshMsg.id ∈ bigSeen then ((false, bigSeen) : Bool × List String)
      else
        if 10000 < (bigSeen ++ [freshMsg.id]).length then
          (true, (List.reverse (bigSeen ++ [freshMsg.id])).drop
            ((List.reverse (bigSeen ++ [freshMsg.id])).length - 8000))
        else (true, bigSeen ++ [freshMsg.id]))
    = (true, bigSeen.reverse.drop 2000)
  rw [freshMsg_id, if_neg f_not_mem_bigSeen, hlen1,
    if_pos (show (10000 : Nat) < 10001 by norm_num), hrev,
    List.length_cons, List.length_reverse, bigSeen_length]
  show (true, ("f" :: bigSeen.reverse).drop 2001) = (true, bigSeen.reverse.drop 2000)
  rw [List.drop_succ_cons]

theorem bigSeen_trim_fst : (dedupStep List.reverse bigSeen freshMsg).1 = true := by
  rw [bigSeen_trim]

theorem bigSeen_trim_snd :
    (dedupStep List.reverse bigSeen freshMsg).2 = bigSeen.reverse.drop 2000 := by
  rw [bigSeen_trim]

theorem f_not_mem_trim : "f" ∉ bigSeen.reverse.drop 2000 := by
  intro h
  exact f_not_mem_bigSeen (List.mem_reverse.mp (List.drop_subset 2000 bigSeen.reverse h))

theorem oldest_mem_trim : "k" ++ toString 0 ∈ bigSeen.reverse.drop 2000 := by
  have h1 : bigSeen.reverse.drop 2000 = (bigSeen.take 8000).reverse := by
    rw [List.reverse_take, bigSeen_length]
  have h2 : bigSeen.take 8000 = (List.range 8000).map (fun n => "k" ++ toString n) := by
    unfold bigSeen
    rw [← List.map_take, List.take_range,
      min_eq_left (show (8000 : Nat) ≤ 10000 by norm_num)]
  rw [h1, List.mem_reverse, h2]
  exact List.mem_map.mpr ⟨0, List.mem_range.mpr (by norm_num), rfl⟩

/-- Claim C4, counterexample to the unconditional at-most-once part.
The cache is a Python set, enumerated by list(s) in an
implementation-determined order; List.reverse permutes the contents and
is therefore an admissible enumeration.  With the cache at the
10000-entry cap, the fresh identity f is admitted, and the trim its
insertion triggers keeps the last 8000 entries of the reversed
enumeration, evicting f itself; the immediately following poll of the
same identity from the same source is then admitted again, so the same
identity is delivered twice. -/
theorem dedup_redelivery_counterexample :
    (deduplicateMessages List.reverse bigSeen [freshMsg]).1 = [freshMsg]
    ∧ (deduplicateMessages List.reverse
        (deduplicateMessages List.reverse bigSeen [freshMsg]).2 [freshMsg]).1
        = [freshMsg] := by
  have h2 : (deduplicateMessages List.reverse bigSeen [freshMsg]).2
      = bigSeen.reverse.drop 2000 := by
    rw [deduplicateMessages_single, bigSeen_trim]
  constructor
  · rw [deduplicateMessages_single, freshMsg_id, if_neg f_not_mem_bigSeen]
  · rw [h2, deduplicateMessages_single, freshMsg_id, if_neg f_not_mem_trim]

/-- Claim C4, amended: for every enumeration order the set can expose,
a message identity is admitted by the deduplication step exactly when
it is not in the seen cache; an identity already in the cache is
suppressed and the cache is left unchanged; and while the identity
remains in the cache, a later occurrence — in particular an immediately
repeated poll — is suppressed.  Without the remains-in-the-cache
proviso the at-most-once property fails: the trim follows the set
enumeration order and can evict even the just-added identity (see the
counterexample). -/
theorem dedup_admit_once (setOrder : List String → List String)
    (seen : List String) (m m2 : ChatMessage) (hid : m2.id = m.id) :
    ((dedupStep setOrder seen m).1 = true ↔ m.id ∉ seen)
    ∧ (m.id ∈ seen → dedupStep setOrder seen m = (false, seen))
    ∧ (m.id ∈ (dedupStep setOrder seen m).2 →
        (dedupStep setOrder (dedupStep setOrder seen m).2 m2).1 = false)
    ∧ (deduplicateMessages setOrder seen [m]
        = (if m.id ∈ seen then [] else [m], (dedupStep setOrder seen m).2))
    ∧ (m.id ∈ (deduplicateMessages setOrder seen [m]).2 →
        (deduplicateMessages setOrder
          (deduplicateMessages setOrder seen [m]).2 [m2]).1 = []) := by
  refine ⟨by rw [dedupStep_fst]; simp, fun h => by simp [dedupStep, h], ?_,
    deduplicateMessages_single setOrder seen m, ?_⟩
  · intro hmem
    rw [dedupStep_fst]
    simp [hid, hmem]
  · intro hmem
    rw [deduplicateMessages_single]
    have hmem2 : m2.id ∈ (deduplicateMessages setOrder seen [m]).2 := by
      rw [hid]
      exact hmem
    simp [hmem2]

/-- Claim C4, witness: identity b, admitted into the cache holding a
and still present afterwards, is suppressed on the second poll (under
the identity enumeration order). -/
theorem dedup_admit_once_witness :
    (deduplicateMessages (fun l => l)
      (deduplicateMessages (fun l => l) ["a"] [⟨"b", "x", "ch", 0⟩]).2
      [⟨"b", "y", "ch", 1⟩]).1 = [] :=
  (dedup_admit_once (fun l => l) ["a"] ⟨"b", "x", "ch", 0⟩ ⟨"b", "y", "ch", 1⟩
    rfl).2.2.2.2 (by decide)

/-- Claim C5, counterexample to the evicting-the-oldest part: with the
cache at the cap and the admissible reverse enumeration order
(List.reverse permutes the set contents), the trim triggered by
inserting the fresh identity f cuts the cache to exactly 8000 entries
but evicts f itself — the newest entry — while the very first identity
ever inserted survives; the eviction is therefore not oldest-first. -/
theorem dedup_trim_not_oldest_counterexample :
    bigSeen.length = 10000
    ∧ (dedupStep List.reverse bigSeen freshMsg).1 = true
    ∧ (dedupStep List.reverse bigSeen freshMsg).2.length = 8000
    ∧ freshMsg.id ∉ (dedupStep List.reverse bigSeen freshMsg).2
    ∧ "k" ++ toString 0 ∈ (dedupStep List.reverse bigSeen freshMsg).2 := by
  refine ⟨bigSeen_length, bigSeen_trim_fst, ?_, ?_, ?_⟩
  · rw [bigSeen_trim_snd, List.length_drop, List.length_reverse, bigSeen_length]
  · rw [freshMsg_id, bigSeen_trim_snd]
    exact f_not_mem_trim
  · rw [bigSeen_trim_snd]
    exact oldest_mem_trim

/-- Claim C5, amended (the size part, which is what the code
guarantees): starting from a cache within the 10000-entry cap and for
every enumeration order the set can expose (any permutation of the
contents), one deduplication step keeps the cache within the cap; an
admitted identity grows the cache by one, and when that would exceed
10000 entries (the transient maximum is therefore 10001) the cache is
immediately trimmed to exactly 8000 entries; a suppressed identity
leaves the cache unchanged; and a whole polled batch keeps the cache
within the cap.  Which 8000 entries remain depends on the enumeration
order; they are not in general the most recently inserted ones (see the
counterexample), so the eviction is not oldest-first. -/
theorem dedup_cache_bound (setOrder : List String → List String)
    (horder : ∀ l : List String, List.Perm (setOrder l) l)
    (seen : List String) (m : ChatMessage) (hlen : seen.length ≤ 10000) :
    ((dedupStep setOrder seen m).2.length ≤ 10000)
    ∧ (m.id ∉ seen → (dedupStep setOrder seen m).2.length
         = if 10000 < seen.length + 1 then 8000 else seen.length + 1)
    ∧ (m.id ∈ seen → (dedupStep setOrder seen m).2 = seen)
    ∧ (∀ msgs, (deduplicateMessages setOrder seen msgs).2.length ≤ 10000) := by
  have hlen1 : (seen ++ [m.id]).length = seen.length + 1 := by simp
  refine ⟨dedupStep_length_le setOrder seen m hlen, ?_,
    fun h => by simp [dedupStep, h],
    fun msgs => deduplicateMessages_length_le setOrder msgs seen hlen⟩
  intro h
  by_cases ht : 10000 < (seen ++ [m.id]).length
  · have ht1 : 10000 < seen.length + 1 := by rw [hlen1] at ht; exact ht
    have hperm : (setOrder (seen ++ [m.id])).length = seen.length + 1 := by
      rw [(horder (seen ++ [m.id])).length_eq, hlen1]
    simp only [dedupStep, if_neg h, if_pos ht]
    rw [List.length_drop, hperm, if_pos ht1]
    omega
  · have ht1 : ¬ 10000 < seen.length + 1 := by rw [hlen1] at ht; exact ht
    simp only [dedupStep, if_neg h, if_neg ht]
    rw [hlen1, if_neg ht1]

/-- Claim C5, witness: under the identity enumeration order (a
permutation of the contents), adding a fresh identity to the empty
cache yields the no-trim size. -/
theorem dedup_cache_bound_witness :
    (dedupStep (fun l => l) [] ⟨"a", "x", "ch", 0⟩).2.length
      = if 10000 < ([] : List String).length + 1 then 8000
        else ([] : List String).length + 1 :=
  (dedup_cache_bound (fun l => l) (fun l => List.Perm.refl l) []
    ⟨"a", "x", "ch", 0⟩ (by decide)).2.1 (by decide)

/-! ## Claim C8 : one message's persistence failure never aborts the batch -/

theorem processMessage_eq (kf : Option MonitorV2.KeywordFilter) (db : DbState)
    (m : ChatMessage) :
    processMessage kf db m
      = if db.failOn m.content then (false, db)
        else (true, { db with stored := db.stored ++ [toRecord kf m] }) := by
  by_cases h : db.failOn m.content
  · simp [processMessage, insertMessage, toRecord, h]
  · simp [processMessage, insertMessage, toRecord, h]

theorem processBatch_spec (kf : Option MonitorV2.KeywordFilter)
    (msgs : List ChatMessage) : ∀ db : DbState,
    processBatch kf db msgs
      = (msgs.map (fun m => !db.failOn m.content),
         { stored := db.stored
             ++ (msgs.filter (fun m => !db.failOn m.content)).map (toRecord kf),
           failOn := db.failOn }) := by
  induction msgs with
  | nil =>
      intro db
      simp [processBatch]
  | cons m rest ih =>
      intro db
      by_cases h : db.failOn m.content
      · simp [processBatch, processMessage_eq, h, ih db]
      · simp [processBatch, processMessage_eq, h, ih { db with stored := db.stored ++ [toRecord kf m] }]

/-- Claim C8: processing a polled batch yields one outcome per message
(no message is skipped and no failure propagates), each message's
outcome depends only on its own persistence failure, the stored records
are exactly the surviving messages appended in order, the failure
oracle is untouched, and a poll of an available source returns the
batch processing results without raising. -/
theorem processBatch_partial_failure (kf : Option MonitorV2.KeywordFilter)
    (db : DbState) (msgs : List ChatMessage) :
    ((processBatch kf db msgs).1.length = msgs.length)
    ∧ ((processBatch kf db msgs).1 = msgs.map (fun m => !db.failOn m.content))
    ∧ ((processBatch kf db msgs).2.stored
        = db.stored ++ (msgs.filter (fun m => !db.failOn m.content)).map (toRecord kf))
    ∧ ((processBatch kf db msgs).2.failOn = db.failOn)
    ∧ (∀ (s : SourceState) (now : Nat), isAvailable s now = true →
        pollSource s now (PollResult.ok msgs) kf db
          = (true, s, (processBatch kf db msgs).2, (processBatch kf db msgs).1)) := by
  have h := processBatch_spec kf msgs db
  refine ⟨?_, ?_, ?_, ?_, ?_⟩
  · rw [h]
    simp
  · rw [h]
  · rw [h]
  · rw [h]
  · intro s now hav
    simp [pollSource, hav]

/-- Claim C8, witness: a three-message batch whose middle message fails
persistence still yields an outcome for every message, and a poll of an
available source returns exactly those outcomes. -/
theorem processBatch_partial_failure_witness :
    ((processBatch none ⟨[], fun t => decide (t = "bad")⟩
        [⟨"1", "ok1", "ch", 0⟩, ⟨"2", "bad", "ch", 0⟩, ⟨"3", "ok3", "ch", 0⟩]).1
      = [true, false, true])
    ∧ (pollSource ⟨true, none, none, 0, 0⟩ 7
        (PollResult.ok [⟨"1", "ok1", "ch", 0⟩, ⟨"2", "bad", "ch", 0⟩, ⟨"3", "ok3", "ch", 0⟩])
        none ⟨[], fun t => decide (t = "bad")⟩
      = (true, ⟨true, none, none, 0, 0⟩,
         (processBatch none ⟨[], fun t => decide (t = "bad")⟩
           [⟨"1", "ok1", "ch", 0⟩, ⟨"2", "bad", "ch", 0⟩, ⟨"3", "ok3", "ch", 0⟩]).2,
         (processBatch none ⟨[], fun t => decide (t = "bad")⟩
           [⟨"1", "ok1", "ch", 0⟩, ⟨"2", "bad", "ch", 0⟩, ⟨"3", "ok3", "ch", 0⟩]).1)) :=
  ⟨((processBatch_partial_failure none ⟨[], fun t => decide (t = "bad")⟩
      [⟨"1", "ok1", "ch", 0⟩, ⟨"2", "bad", "ch", 0⟩, ⟨"3", "ok3", "ch", 0⟩]).2.1).trans
        (by decide),
   (processBatch_partial_failure none ⟨[], fun t => decide (t = "bad")⟩
      [⟨"1", "ok1", "ch", 0⟩, ⟨"2", "bad", "ch", 0⟩, ⟨"3", "ok3", "ch", 0⟩]).2.2.2.2
        ⟨true, none, none, 0, 0⟩ 7 rfl⟩

/-! ## Claim C7 : retry cadence after poll failures -/

/-- Claim C7, counterexample.  Two facts against the claim.  First, a
source that recorded a poll failure at instant 1000 (via
_update_poll_status) is skipped by the orchestrator at instant 1100
although its 5-second poll interval elapsed long ago: is_available
imposes a 300-second skip window after a recorded failure, so the retry
cadence is not the poll interval alone.  Second, when poll() itself
raises, the orchestrator catch only logs: the source state is returned
unchanged (error count still 0, no error recorded), so the failure is
not recorded in SourceStatus. -/
theorem poll_retry_counterexample :
    (shouldPoll 1100 1000 5 = true)
    ∧ (runLoopStep 1100 1000 5
        (updatePollStatus ⟨true, none, some 995, 0, 0⟩ 1000 false (some "boom"))
        (PollResult.ok []) none ⟨[], fun _ => false⟩
        = (false,
           updatePollStatus ⟨true, none, some 995, 0, 0⟩ 1000 false (some "boom"),
           ⟨[], fun _ => false⟩, 1100))
    ∧ (pollSource ⟨true, none, none, 0, 0⟩ 5 (PollResult.raises "boom") none
        ⟨[], fun _ => false⟩
        = (true, ⟨true, none, none, 0, 0⟩, ⟨[], fun _ => false⟩, [])) :=
  ⟨rfl, rfl, rfl⟩

/-- Claim C7, amended: a poll error that escapes poll() is caught by
the orchestrator and only logged — the source state is unchanged, no
failure is recorded in it — and a source with no recorded error is
always available, so its polls follow the fixed interval cadence of the
run loop, which restamps the last-poll instant whenever the source is
due; but a failure recorded in the source (by _update_poll_status
inside poll) makes the source unavailable for 300 seconds after its
last poll instant, during which due polls are skipped. -/
theorem poll_retry_cadence (s : SourceState) (now t lastPoll interval : Nat)
    (e : String) (res : PollResult) (kf : Option MonitorV2.KeywordFilter)
    (db : DbState) :
    (s.enabled = true → s.lastError = none →
        isAvailable s now = true
        ∧ pollSource s now (PollResult.raises e) kf db = (true, s, db, []))
    ∧ (s.lastError.isSome = true → s.lastPollTime = some t →
        (now : Int) - (t : Int) < 300 →
        pollSource s now res kf db = (false, s, db, []))
    ∧ (shouldPoll now lastPoll interval = true →
        (runLoopStep now lastPoll interval s res kf db).2.2.2 = now)
    ∧ (shouldPoll now lastPoll interval = false →
        runLoopStep now lastPoll interval s res kf db = (false, s, db, lastPoll)) := by
  refine ⟨?_, ?_, ?_, ?_⟩
  · intro hen herr
    have hav : isAvailable s now = true := by
      simp [isAvailable, hen, herr]
    exact ⟨hav, by simp [pollSource, hav]⟩
  · intro hsome ht hw
    obtain ⟨err, herr⟩ := Option.isSome_iff_exists.mp hsome
    have hav : isAvailable s now = false := by
      cases hb : s.enabled with
      | false => simp [isAvailable, hb]
      | true => simp [isAvailable, hb, herr, ht, hw]
    simp [pollSource, hav]
  · intro hgate
    simp [runLoopStep, hgate]
  · intro hgate
    simp [runLoopStep, hgate]

/-- Claim C7, witness for the amended theorem: a source with no
recorded error is available, and a raising poll leaves it unchanged. -/
theorem poll_retry_cadence_witness :
    isAvailable ⟨true, none, none, 0, 0⟩ 42 = true
    ∧ pollSource ⟨true, none, none, 0, 0⟩ 42 (PollResult.raises "boom") none
        ⟨[], fun _ => false⟩
      = (true, ⟨true, none, none, 0, 0⟩, ⟨[], fun _ => false⟩, []) :=
  (poll_retry_cadence ⟨true, none, none, 0, 0⟩ 42 0 0 5 "boom"
    (PollResult.raises "boom") none ⟨[], fun _ => false⟩).1 rfl rfl

/-! ## Claim C9 : keyword filter returns the first configured keyword that matches -/

theorem checkLoop_eq_find (sim : String → String → ℚ) (f : Monitor.KeywordFilter)
    (text : String) (kws : List String) :
    Monitor.checkLoop sim f text kws = kws.find? (Monitor.kwMatches sim f text) := by
  induction kws with
  | nil => rfl
  | cons keyword rest ih =>
      cases hmode : f.matchMode with
      | contain =>
          by_cases h1 : pyIn (if f.caseSensitive then keyword else keyword.toLower)
              (if f.caseSensitive then text else text.toLower)
          · simp [Monitor.checkLoop, Monitor.kwMatches, hmode, h1]
          · by_cases h2 : Monitor.ocrErrorMatch f.caseSensitive text keyword
            · simp [Monitor.checkLoop, Monitor.kwMatches, hmode, h1, h2]
            · simp [Monitor.checkLoop, Monitor.kwMatches, hmode, h1, h2, ih]
      | exact =>
          by_cases h1 : ((if f.caseSensitive then keyword else keyword.toLower)
              == (if f.caseSensitive then text else text.toLower)) = true
          · simp [Monitor.checkLoop, Monitor.kwMatches, hmode, h1]
          · simp [Monitor.checkLoop, Monitor.kwMatches, hmode, h1, ih]
      | fuzzy =>
          by_cases h1 : f.fuzzyThreshold
              ≤ Monitor.fuzzyMatch sim f.caseSensitive text keyword
          · simp [Monitor.checkLoop, Monitor.kwMatches, hmode, h1]
          · by_cases h2 : pyIn (if f.caseSensitive then keyword else keyword.toLower)
                (if f.caseSensitive then text else text.toLower)
            · simp [Monitor.checkLoop, Monitor.kwMatches, hmode, h1, h2]
            · simp [Monitor.checkLoop, Monitor.kwMatches, hmode, h1, h2, ih]

theorem checkFirst_eq_find (checkText : String) (kws : List String) :
    MonitorV2.checkFirst checkText kws = kws.find? (fun kw => pyIn kw checkText) := by
  induction kws with
  | nil => rfl
  | cons k rest ih =>
      by_cases h : pyIn k checkText
      · simp [MonitorV2.checkFirst, h]
      · simp [MonitorV2.checkFirst, h, ih]

/-- Claim C9: for both keyword filters (monitor.py with its three match
modes and any case-sensitivity and fuzzy-similarity oracle, and
monitor_v2.py), check returns none on null or empty text, and otherwise
returns the first keyword in the stored order whose single-keyword test
succeeds — a first-match scan, with no scoring across keywords. -/
theorem check_first_match (sim : String → String → ℚ) (f : Monitor.KeywordFilter)
    (f2 : MonitorV2.KeywordFilter) (t : String) :
    (Monitor.check sim f none = none)
    ∧ (Monitor.check sim f (some "") = none)
    ∧ (Monitor.check sim f (some t)
        = if t.isEmpty then none else f.keywords.find? (Monitor.kwMatches sim f t))
    ∧ (MonitorV2.check f2 none = none)
    ∧ (MonitorV2.check f2 (some "") = none)
    ∧ (MonitorV2.check f2 (some t)
        = if t.isEmpty then none
          else f2.keywords.find?
            (fun kw => pyIn kw (if f2.caseSensitive then t else t.toLower))) := by
  refine ⟨rfl, rfl, ?_, rfl, rfl, ?_⟩
  · by_cases ht : t.isEmpty <;> simp [Monitor.check, ht, checkLoop_eq_find]
  · by_cases ht : t.isEmpty <;> simp [MonitorV2.check, ht, checkFirst_eq_find]

end WeChatMonitor
